import Mathlib

/-!
Shallow embedding of the `abserde` crate (src/lib.rs): a settings-persistence
helper built from a path resolver (`Abserde::config_path`) and a config store
(`Config::save_config`, `Config::load_config`, `Abserde::delete`).

Modelling choices, each tied to the source:
* Paths (`PathBuf`) are an `absolute` flag plus a list of components; `join`
  follows Rust's `Path::join` (an absolute right operand replaces the left),
  and `parent?` follows `Path::parent` (none for the root `/` and for the
  empty path).  App names and default file names enter paths as single
  components via `joinName`.
* The OS directory provider (`dirs::config_dir()`) is a parameter
  `root? : Option PathBuf`.
* Codecs (serde_json / serde_yaml / serde_pickle / serde_ini / toml) are an
  external collaborator, passed as a `Codec` record.  A streaming encoder that
  fails mid-encode reports the byte prefix it already pushed to its writer
  (`EncodeRes.fail written`).
* The filesystem is an explicit state `FS`: an association list of file
  contents plus a list of existing directories.  The store's four filesystem
  primitives (`create_dir_all`, `File::create` + write, `remove_file`,
  `remove_dir`) act on it.
* Panics are observable: `SaveStatus.panicked` records the `.unwrap()` on the
  pretty-JSON serialization at lib.rs:418.
-/

/-- Bytes written to / read from a config file. -/
abbrev Bytes := List Nat

/-- Model of Rust `PathBuf`: an absolute-path flag plus the list of normal
components.  `⟨true, []⟩` is the root `/`; `⟨false, []⟩` is the empty path. -/
structure PathBuf where
  absolute : Bool
  components : List String
deriving DecidableEq, Repr

/-- Rust `Path::join`: joining an absolute path replaces the receiver,
joining a relative path appends its components. -/
def PathBuf.join (p q : PathBuf) : PathBuf :=
  if q.absolute then q else ⟨p.absolute, p.components ++ q.components⟩

/-- Joining a single file-name / app-name component (Rust `join` with a
`String` holding no separators). -/
def PathBuf.joinName (p : PathBuf) (s : String) : PathBuf :=
  p.join ⟨false, [s]⟩

/-- Rust `Path::parent`: `none` for the root and the empty path, otherwise
the path with its last component dropped. -/
def PathBuf.parent? (p : PathBuf) : Option PathBuf :=
  match p.components with
  | [] => none
  | _ => some ⟨p.absolute, p.components.dropLast⟩

/-- `PrettyJsonIndent` (lib.rs:192): JSON pretty-print indentation choice. -/
inductive PrettyJsonIndent where
  | Tab : PrettyJsonIndent
  | Spaces : Nat → PrettyJsonIndent
deriving DecidableEq, Repr

/-- `Display for PrettyJsonIndent` (lib.rs:201): a tab, or `n` spaces. -/
def PrettyJsonIndent.toIndentString : PrettyJsonIndent → String
  | .Tab => "\t"
  | .Spaces n => String.mk (List.replicate n ' ')

/-- `Format` (lib.rs:215) with every feature enabled, as in the source's
test matrix. -/
inductive Format where
  | Json : Format
  | PrettyJson : PrettyJsonIndent → Format
  | Yaml : Format
  | Pickle : Format
  | Ini : Format
  | Toml : Format
deriving DecidableEq, Repr

/-- The derived `Debug` name of a `Format` variant, as produced by
`format!("{:?}", ...)` on a unit variant. -/
def Format.debugName : Format → String
  | .Json => "Json"
  | .PrettyJson _ => "PrettyJson"
  | .Yaml => "Yaml"
  | .Pickle => "Pickle"
  | .Ini => "Ini"
  | .Toml => "Toml"

/-- ASCII lowercasing of one character (what `str::to_lowercase` does on the
ASCII-only strings involved here). -/
def asciiToLower (c : Char) : Char :=
  if 'A' ≤ c ∧ c ≤ 'Z' then Char.ofNat (c.toNat + 32) else c

/-- Lowercase a string character by character. -/
def strToLower (s : String) : String :=
  String.mk (s.data.map asciiToLower)

/-- `Format::default_name` (lib.rs:246): `config.` + lowercased Debug name,
with `PrettyJson(_)` redirected to `Json`'s name. -/
def Format.default_name (f : Format) : String :=
  match f with
  | .PrettyJson _ => strToLower ("config." ++ Format.debugName .Json)
  | _ => strToLower ("config." ++ f.debugName)

/-- `Location` (lib.rs:256). -/
inductive Location where
  | Auto : Location
  | Path : PathBuf → Location
  | File : PathBuf → Location
  | Dir : PathBuf → Location
deriving DecidableEq, Repr

/-- `Abserde` (lib.rs:273): the store descriptor. -/
structure Abserde where
  app : String
  location : Location
  format : Format
deriving DecidableEq, Repr

/-- The error outcomes the store can return (the source's `Box<dyn Error>`
values, classified).  `noSystemConfigDir` is an `io::Error` carrying
`MSG_NO_SYSTEM_CONFIG_DIR` ("no system config directory detected") — the
spec's `DirectoryUnavailable`.  `fileNotFound` is an `io::ErrorKind::NotFound`
from `File::open` / `remove_file`.  `encodingFailure` / `decodingFailure` are
codec rejections propagated by `?`. -/
inductive Err where
  | noSystemConfigDir : Err
  | fileNotFound : Err
  | encodingFailure : Err
  | decodingFailure : Err
deriving DecidableEq, Repr

/-- `Abserde::config_path` (lib.rs:285): first demand the OS config root from
the directory provider (`dirs::config_dir().ok_or_else(...)?` — this happens
before the location is examined), then compose the path per location. -/
def config_path (a : Abserde) (root? : Option PathBuf) : Except Err PathBuf :=
  match root? with
  | none => .error .noSystemConfigDir
  | some system_config_dir =>
    .ok (match a.location with
      | .Auto => (system_config_dir.joinName a.app).joinName a.format.default_name
      | .Path path => path
      | .Dir dir => dir.joinName a.format.default_name
      | .File file => (system_config_dir.joinName a.app).join file)

/-- The filesystem state the store mutates: file contents keyed by path, and
the set (list) of existing directories. -/
structure FS where
  files : List (PathBuf × Bytes)
  dirs : List PathBuf
deriving DecidableEq, Repr

/-- Content of the file at `p`, if present. -/
def FS.fileContent (fs : FS) (p : PathBuf) : Option Bytes :=
  (fs.files.find? (fun e => decide (e.1 = p))).map (fun e => e.2)

/-- `File::create` + write: truncate/overwrite the file at `p` with `b`. -/
def FS.writeFile (fs : FS) (p : PathBuf) (b : Bytes) : FS :=
  { fs with files := (p, b) :: fs.files.filter (fun e => !decide (e.1 = p)) }

/-- `remove_file` state change (the caller checks existence separately). -/
def FS.removeFile (fs : FS) (p : PathBuf) : FS :=
  { fs with files := fs.files.filter (fun e => !decide (e.1 = p)) }

/-- `create_dir_all`: create `d` and all its ancestors. -/
def FS.createDirAll (fs : FS) (d : PathBuf) : FS :=
  { fs with
    dirs := ((List.range (d.components.length + 1)).map
      (fun n => PathBuf.mk d.absolute (d.components.take n))) ++ fs.dirs }

/-- A directory is empty when no file and no other directory lies directly
inside it. -/
def FS.dirEmpty (fs : FS) (d : PathBuf) : Bool :=
  fs.files.all (fun e => !decide (e.1.parent? = some d)) &&
  fs.dirs.all (fun q => !decide (q.parent? = some d))

/-- `remove_dir` with its result discarded (`_ = remove_dir(config_dir)`,
lib.rs:315): the directory disappears exactly when it was empty; any failure
(non-empty, and in the source also permission errors) leaves the state as is
and is not reported. -/
def FS.removeDirIfEmpty (fs : FS) (d : PathBuf) : FS :=
  if fs.dirEmpty d then
    { fs with dirs := fs.dirs.filter (fun q => !decide (q = d)) }
  else fs

/-- Result of one encoder run.  `fail written` is a codec rejection; for the
streaming serializers (`to_writer`) `written` is the prefix already pushed to
the file, for buffer-first serializers it never reaches the file. -/
inductive EncodeRes where
  | ok : Bytes → EncodeRes
  | fail : Bytes → EncodeRes
deriving DecidableEq, Repr

/-- The codec collaborator: one encode/decode pair per `Format`, external to
the core (serde_json, serde_yaml, serde_pickle, serde_ini, toml). -/
structure Codec (α : Type) where
  encode : Format → α → EncodeRes
  decode : Format → Bytes → Option α

/-- Outcome of `save_config`: normal return, typed error, or the panic of the
`.unwrap()` at lib.rs:418. -/
inductive SaveStatus where
  | ok : SaveStatus
  | err : Err → SaveStatus
  | panicked : SaveStatus
deriving DecidableEq, Repr

/-- `Config::save_config` (lib.rs:396): resolve the path, demand a parent
directory, `create_dir_all` it, then dispatch on the format.
* `Json`/`Yaml`/`Pickle`/`Ini` stream via `to_writer(File::create(..)?, ..)`:
  the file is truncated first, so a mid-encode rejection leaves the already
  written prefix in the file and returns the error.
* `PrettyJson` encodes into a `Vec` buffer with `.unwrap()` — a rejection
  panics before the file is touched; on success `write!` puts buffer + `"\n"`
  into the file.
* `Toml` evaluates `File::create(..)?` (truncating the file) before
  `toml::to_string(self)?` runs, so a rejection leaves an empty file; on
  success the full string is written. -/
def save_config {α : Type} (c : Codec α) (r : α) (a : Abserde)
    (root? : Option PathBuf) (fs : FS) : SaveStatus × FS :=
  match config_path a root? with
  | .error e => (.err e, fs)
  | .ok cp =>
    match cp.parent? with
    | none => (.err .noSystemConfigDir, fs)
    | some config_dir =>
      let fs1 := fs.createDirAll config_dir
      match a.format with
      | .Json =>
        match c.encode .Json r with
        | .ok b => (.ok, fs1.writeFile cp b)
        | .fail w => (.err .encodingFailure, fs1.writeFile cp w)
      | .PrettyJson ind =>
        match c.encode (.PrettyJson ind) r with
        | .ok b => (.ok, fs1.writeFile cp (b ++ [10]))
        | .fail _ => (.panicked, fs1)
      | .Yaml =>
        match c.encode .Yaml r with
        | .ok b => (.ok, fs1.writeFile cp b)
        | .fail w => (.err .encodingFailure, fs1.writeFile cp w)
      | .Pickle =>
        match c.encode .Pickle r with
        | .ok b => (.ok, fs1.writeFile cp b)
        | .fail w => (.err .encodingFailure, fs1.writeFile cp w)
      | .Ini =>
        match c.encode .Ini r with
        | .ok b => (.ok, fs1.writeFile cp b)
        | .fail w => (.err .encodingFailure, fs1.writeFile cp w)
      | .Toml =>
        match c.encode .Toml r with
        | .ok b => (.ok, fs1.writeFile cp b)
        | .fail _ => (.err .encodingFailure, fs1.writeFile cp [])

/-- `Config::load_config` (lib.rs:354): resolve the path, `File::open` it
(`NotFound` when absent), decode the bytes with the format's codec.  Every
format branch in the source has this same open-then-decode shape. -/
def load_config {α : Type} (c : Codec α) (a : Abserde)
    (root? : Option PathBuf) (fs : FS) : Except Err α :=
  match config_path a root? with
  | .error e => .error e
  | .ok cp =>
    match fs.fileContent cp with
    | none => .error .fileNotFound
    | some b =>
      match c.decode a.format b with
      | some r => .ok r
      | none => .error .decodingFailure

/-- `Abserde::delete` (lib.rs:300): resolve the path, `remove_file(..)?`
(`NotFound` when absent), then — unless the location is `Dir` — look up the
parent (`parent().ok_or_else(..)?`, erroring with the `MSG_NO_SYSTEM_CONFIG_DIR`
message when the path has none) and attempt `remove_dir` on it, discarding
that attempt's result. -/
def delete (a : Abserde) (root? : Option PathBuf) (fs : FS) :
    Except Err Unit × FS :=
  match config_path a root? with
  | .error e => (.error e, fs)
  | .ok cp =>
    match fs.fileContent cp with
    | none => (.error .fileNotFound, fs)
    | some _ =>
      let fs1 := fs.removeFile cp
      match a.location with
      | .Dir _ => (.ok (), fs1)
      | _ =>
        match cp.parent? with
        | none => (.error .noSystemConfigDir, fs1)
        | some config_dir => (.ok (), fs1.removeDirIfEmpty config_dir)

/-- The resolution table of spec section 4.1, written from the spec's words:
Auto → `<os_config_root>/<app_name>/<format.default_name()>`;
ExplicitPath(p) → p verbatim; ExplicitDir(d) → `<d>/<format.default_name()>`;
ExplicitFile(f) → `<os_config_root>/<app_name>/<f>`. -/
def specResolve (a : Abserde) (root : PathBuf) : PathBuf :=
  match a.location with
  | .Auto => (root.joinName a.app).joinName a.format.default_name
  | .Path p => p
  | .Dir d => d.joinName a.format.default_name
  | .File f => (root.joinName a.app).join f

/-- The bytes a successful `save_config` leaves in the file: the encoder's
output, plus the `"\n"` that the `write!` at lib.rs:420 appends for
`PrettyJson`. -/
def writtenBytes : Format → Bytes → Bytes
  | .PrettyJson _, b => b ++ [10]
  | _, b => b

/-- A codec whose encoder rejects every record without writing anything:
models a record outside the format's type subset (e.g. a map with
non-string keys handed to serde_json). -/
def rejectAllCodec : Codec Unit where
  encode := fun _ _ => .fail []
  decode := fun _ _ => none

/-- A streaming codec that rejects every record after already pushing the
byte 9 to its writer. -/
def failAfterPrefixCodec : Codec Unit where
  encode := fun _ _ => .fail [9]
  decode := fun _ _ => none

/-- A trivial total codec on `Nat` used to instantiate the store theorems:
encodes `n` as the singleton byte list `[n]`. -/
def natCodec : Codec Nat where
  encode := fun _ n => .ok [n]
  decode := fun _ b => match b with | [n] => some n | _ => none

/-- A concrete OS config root. -/
def osRoot : PathBuf := ⟨true, ["home", "user", ".config"]⟩

/-- Descriptor with an explicit full path and plain JSON format. -/
def jsonDescriptor : Abserde :=
  ⟨"MyApp", .Path ⟨true, ["tmp", "settings.json"]⟩, .Json⟩

/-- Descriptor with an explicit full path and pretty-printed JSON format. -/
def prettyDescriptor : Abserde :=
  ⟨"MyApp", .Path ⟨true, ["tmp", "settings.json"]⟩, .PrettyJson .Tab⟩

/-- Descriptor whose explicit path is the filesystem root `/`, which has no
parent component. -/
def rootFileDescriptor : Abserde := ⟨"MyApp", .Path ⟨true, []⟩, .Json⟩

/-- The empty filesystem. -/
def fs0 : FS := ⟨[], []⟩

/-- A filesystem holding one file (bytes `[1, 2, 3]`) at the path
`jsonDescriptor` resolves to. -/
def fsTmpOld : FS := ⟨[(⟨true, ["tmp", "settings.json"]⟩, [1, 2, 3])], [⟨true, ["tmp"]⟩]⟩

/-- A filesystem holding one file at the parentless root path. -/
def fsRootFile : FS := ⟨[(⟨true, []⟩, [1])], []⟩

example : Format.default_name .Json = "config.json" := by decide
example : Format.default_name (.PrettyJson .Tab) = "config.json" := by decide
example : Format.default_name .Toml = "config.toml" := by decide
example :
    config_path ⟨"MyApp", .Auto, .Json⟩ (some ⟨true, ["home", ".config"]⟩) =
      .ok ⟨true, ["home", ".config", "MyApp", "config.json"]⟩ := rfl
example :
    config_path ⟨"MyApp", .Path ⟨true, ["tmp", "x"]⟩, .Json⟩ none =
      .error .noSystemConfigDir := rfl

/-- Writing a file and reading it back at the same path yields the written
bytes. -/
theorem FS.fileContent_writeFile (fs : FS) (p : PathBuf) (b : Bytes) :
    (fs.writeFile p b).fileContent p = some b := by
  simp [FS.fileContent, FS.writeFile]

/-- After `removeFile p` there is no file at `p`. -/
theorem FS.fileContent_removeFile_self (fs : FS) (p : PathBuf) :
    (fs.removeFile p).fileContent p = none := by
  have h : (List.filter (fun e => !decide (e.1 = p)) fs.files).find?
      (fun e => decide (e.1 = p)) = none := by
    rw [List.find?_eq_none]
    intro x hx
    have hne := List.of_mem_filter hx
    simpa using hne
  simp [FS.fileContent, FS.removeFile, h]

/-- Creating directories does not change any file's content. -/
theorem FS.fileContent_createDirAll (fs : FS) (d p : PathBuf) :
    (fs.createDirAll d).fileContent p = fs.fileContent p := rfl

/-- The discarded `remove_dir` attempt does not change any file's content. -/
theorem FS.fileContent_removeDirIfEmpty (fs : FS) (d p : PathBuf) :
    (fs.removeDirIfEmpty d).fileContent p = fs.fileContent p := by
  unfold FS.removeDirIfEmpty
  split <;> rfl

/-- Removing a file does not change the directory set. -/
theorem FS.dirs_removeFile (fs : FS) (p : PathBuf) :
    (fs.removeFile p).dirs = fs.dirs := rfl

/-- Shape of a successful save: with the root available, the resolved path
`p` having parent `d`, and the encoder accepting the record with bytes `b`,
`save_config` returns `ok` and the state where `d` was created and the file
at `p` overwritten with the encoding (plus the pretty-JSON newline). -/
theorem save_config_eq {α : Type} (c : Codec α) (r : α) (a : Abserde)
    (root : PathBuf) (fs : FS) (p d : PathBuf) (b : Bytes)
    (hp : config_path a (some root) = .ok p)
    (hd : p.parent? = some d)
    (henc : c.encode a.format r = .ok b) :
    save_config c r a (some root) fs =
      (.ok, (fs.createDirAll d).writeFile p (writtenBytes a.format b)) := by
  rcases a with ⟨app, loc, fmt⟩
  simp only [config_path, Except.ok.injEq] at hp
  subst hp
  unfold save_config
  simp only [config_path]
  rw [hd]
  cases fmt <;> simp only at henc ⊢ <;> rw [henc] <;> rfl

/-- Claim C1 (corrected, counterexample): with the directory provider
reporting no OS config root, resolution of an `ExplicitPath` descriptor and
of an `ExplicitDir` descriptor both fail with the `DirectoryUnavailable`
error, although the claim says they succeed: `Abserde::config_path` demands
`dirs::config_dir()` before looking at the location. -/
theorem c1_counterexample :
    config_path ⟨"MyApp", .Path ⟨true, ["tmp", "app.json"]⟩, .Json⟩ none =
      .error .noSystemConfigDir ∧
    config_path ⟨"MyApp", .Dir ⟨true, ["tmp"]⟩, .Json⟩ none =
      .error .noSystemConfigDir :=
  ⟨rfl, rfl⟩

/-- Claim C1 (corrected, amended): the OS-config-root check is unconditional.
When the provider reports the root unavailable, resolution fails with
`DirectoryUnavailable` for every strategy — including `ExplicitPath` and
`ExplicitDir`, whose results never use the root; when the root is available,
resolution succeeds for every strategy. -/
theorem c1_root_check_unconditional (a : Abserde) :
    config_path a none = .error .noSystemConfigDir ∧
    ∀ root : PathBuf, ∃ p, config_path a (some root) = .ok p := by
  refine ⟨rfl, fun root => ?_⟩
  rcases a with ⟨app, loc, fmt⟩
  cases loc <;> exact ⟨_, rfl⟩

/-- Claim C4 (confirmed): with the OS config root available, resolution
follows the spec's four-case table exactly — Auto composes root, app name and
the format's default name; ExplicitPath is verbatim; ExplicitDir joins the
default name onto the given directory; ExplicitFile composes root, app name
and the given file name. -/
theorem c4_resolution_table (a : Abserde) (root : PathBuf) :
    config_path a (some root) = .ok (specResolve a root) := by
  rcases a with ⟨app, loc, fmt⟩
  cases loc <;> rfl

/-- Claim C5 (confirmed): every format's `default_name` is the lowercase
string `config.<format-tag>`, and `PrettyJson` with any indent choice maps to
its base format's name `config.json`. -/
theorem c5_default_names :
    Format.default_name .Json = "config.json" ∧
    Format.default_name .Yaml = "config.yaml" ∧
    Format.default_name .Toml = "config.toml" ∧
    Format.default_name .Ini = "config.ini" ∧
    Format.default_name .Pickle = "config.pickle" ∧
    ∀ ind : PrettyJsonIndent, Format.default_name (.PrettyJson ind) = "config.json" :=
  ⟨rfl, rfl, rfl, rfl, rfl, fun _ => rfl⟩

/-- Claim C9 (confirmed): path resolution is a pure function of
`(app_name, location, format, OS config root)` — two descriptors agreeing on
those fields resolve identically under the same root report, with no other
input (in particular no filesystem state) entering the result. -/
theorem c9_resolution_pure (a1 a2 : Abserde) (root1 root2 : Option PathBuf)
    (happ : a1.app = a2.app) (hloc : a1.location = a2.location)
    (hfmt : a1.format = a2.format) (hroot : root1 = root2) :
    config_path a1 root1 = config_path a2 root2 := by
  rcases a1 with ⟨app1, loc1, fmt1⟩
  rcases a2 with ⟨app2, loc2, fmt2⟩
  simp only at happ hloc hfmt
  subst happ; subst hloc; subst hfmt; subst hroot
  rfl

/-- Witness for C9 at a concrete descriptor and root. -/
theorem c9_witness :
    config_path ⟨"MyApp", .Auto, .Json⟩ (some osRoot) =
      config_path ⟨"MyApp", .Auto, .Json⟩ (some osRoot) :=
  c9_resolution_pure _ _ _ _ rfl rfl rfl rfl

/-- Claim C2 (code_bug): at a record the JSON codec rejects, saving with
`PrettyJson` panics — the `.unwrap()` at lib.rs:418 — instead of returning
the typed `EncodingFailure` the spec promises, while the same rejection under
plain `Json` is returned as a typed error. -/
theorem c2_pretty_json_panics :
    (save_config rejectAllCodec () prettyDescriptor (some osRoot) fs0).1 =
      .panicked ∧
    (save_config rejectAllCodec () jsonDescriptor (some osRoot) fs0).1 =
      .err .encodingFailure :=
  ⟨rfl, rfl⟩

/-- Claim C3 (corrected, counterexample): a save whose JSON encoder rejects
the record mid-encode does not leave the previous file content in place.
Before the save the file holds `[1, 2, 3]`; the failed save returns the
typed `EncodingFailure` but leaves the partially streamed prefix `[9]` in
the file, because `to_writer(File::create(..)?, ..)` truncates the file
before encoding. -/
theorem c3_counterexample :
    fsTmpOld.fileContent ⟨true, ["tmp", "settings.json"]⟩ = some [1, 2, 3] ∧
    (save_config failAfterPrefixCodec () jsonDescriptor (some osRoot) fsTmpOld).1 =
      .err .encodingFailure ∧
    (save_config failAfterPrefixCodec () jsonDescriptor (some osRoot) fsTmpOld).2.fileContent
      ⟨true, ["tmp", "settings.json"]⟩ = some [9] :=
  ⟨rfl, rfl, rfl⟩

/-- Claim C3 (corrected, amended): on success `save_config` overwrites the
file with the complete encoding, but a codec rejection after resolution is
not atomic: for the streaming formats Json/Yaml/Pickle/Ini the file is
truncated before encoding and is left holding the prefix the encoder already
wrote; for Toml the file is truncated before `toml::to_string` runs and is
left empty; only `PrettyJson` leaves the previous content unchanged on a
codec rejection, because it panics before the file is created. -/
theorem c3_failed_save_clobbers {α : Type} (c : Codec α) (r : α) (a : Abserde)
    (root : PathBuf) (fs : FS) (p d : PathBuf) (w : Bytes)
    (hp : config_path a (some root) = .ok p)
    (hd : p.parent? = some d)
    (hw : c.encode a.format r = .fail w) :
    ((a.format = .Json ∨ a.format = .Yaml ∨ a.format = .Pickle ∨ a.format = .Ini) →
      (save_config c r a (some root) fs).1 = .err .encodingFailure ∧
      (save_config c r a (some root) fs).2.fileContent p = some w) ∧
    (a.format = .Toml →
      (save_config c r a (some root) fs).1 = .err .encodingFailure ∧
      (save_config c r a (some root) fs).2.fileContent p = some []) ∧
    (∀ ind : PrettyJsonIndent, a.format = .PrettyJson ind →
      (save_config c r a (some root) fs).1 = .panicked ∧
      (save_config c r a (some root) fs).2.fileContent p = fs.fileContent p) := by
  rcases a with ⟨app, loc, fmt⟩
  simp only [config_path, Except.ok.injEq] at hp
  subst hp
  simp only at hw
  cases fmt
  case Json =>
    refine ⟨?_, ?_, ?_⟩
    · intro _
      refine ⟨?_, ?_⟩
      · simp only [save_config, config_path, hd, hw]
      · simp only [save_config, config_path, hd, hw]
        exact FS.fileContent_writeFile _ _ _
    · intro h
      exact nomatch h
    · intro ind h
      exact nomatch h
  case Yaml =>
    refine ⟨?_, ?_, ?_⟩
    · intro _
      refine ⟨?_, ?_⟩
      · simp only [save_config, config_path, hd, hw]
      · simp only [save_config, config_path, hd, hw]
        exact FS.fileContent_writeFile _ _ _
    · intro h
      exact nomatch h
    · intro ind h
      exact nomatch h
  case Pickle =>
    refine ⟨?_, ?_, ?_⟩
    · intro _
      refine ⟨?_, ?_⟩
      · simp only [save_config, config_path, hd, hw]
      · simp only [save_config, config_path, hd, hw]
        exact FS.fileContent_writeFile _ _ _
    · intro h
      exact nomatch h
    · intro ind h
      exact nomatch h
  case Ini =>
    refine ⟨?_, ?_, ?_⟩
    · intro _
      refine ⟨?_, ?_⟩
      · simp only [save_config, config_path, hd, hw]
      · simp only [save_config, config_path, hd, hw]
        exact FS.fileContent_writeFile _ _ _
    · intro h
      exact nomatch h
    · intro ind h
      exact nomatch h
  case Toml =>
    refine ⟨?_, ?_, ?_⟩
    · intro h
      rcases h with h | h | h | h <;> exact nomatch h
    · intro _
      refine ⟨?_, ?_⟩
      · simp only [save_config, config_path, hd, hw]
      · simp only [save_config, config_path, hd, hw]
        exact FS.fileContent_writeFile _ _ _
    · intro ind h
      exact nomatch h
  case PrettyJson ind =>
    refine ⟨?_, ?_, ?_⟩
    · intro h
      rcases h with h | h | h | h <;> exact nomatch h
    · intro h
      exact nomatch h
    · intro ind2 _
      refine ⟨?_, ?_⟩
      · simp only [save_config, config_path, hd, hw]
      · simp only [save_config, config_path, hd, hw]
        exact FS.fileContent_createDirAll _ _ _

/-- Witness for C3's amended theorem at the counterexample input. -/
theorem c3_witness :
    (save_config failAfterPrefixCodec () jsonDescriptor (some osRoot) fsTmpOld).2.fileContent
      ⟨true, ["tmp", "settings.json"]⟩ = some [9] :=
  ((c3_failed_save_clobbers failAfterPrefixCodec () jsonDescriptor osRoot fsTmpOld
      ⟨true, ["tmp", "settings.json"]⟩ ⟨true, ["tmp"]⟩ [9] rfl rfl rfl).1 (Or.inl rfl)).2

/-- Claim C6 (corrected, counterexample): deleting a present file through an
`ExplicitPath` descriptor whose resolved path has no parent removes the file
and then still reports a failure — a non-`ExplicitDir` delete whose file
removal succeeded is turned into an error by the directory-cleanup step,
although the claim says that can never happen. -/
theorem c6_counterexample :
    (delete rootFileDescriptor (some osRoot) fsRootFile).1 =
      .error .noSystemConfigDir ∧
    (delete rootFileDescriptor (some osRoot) fsRootFile).2.fileContent ⟨true, []⟩ =
      none :=
  ⟨rfl, by simpa using FS.fileContent_removeFile_self fsRootFile ⟨true, []⟩⟩

/-- Claim C6 (corrected, amended): deletion's cleanup policy, restricted to
resolved paths that have a parent component.  With `ExplicitDir` the
directory set is never touched and delete succeeds; with every other strategy
whose resolved path has parent `d`, delete succeeds, the file is removed, and
`d` is removed exactly when it is empty afterwards — a failed removal
attempt is discarded and never turns the successful delete into a failure.
(When the resolved path has no parent, delete instead errors after removing
the file.) -/
theorem c6_cleanup_policy (a : Abserde) (root : PathBuf) (fs : FS) (p : PathBuf)
    (hp : config_path a (some root) = .ok p)
    (hfile : (fs.fileContent p).isSome = true) :
    (∀ q : PathBuf, a.location = .Dir q →
      delete a (some root) fs = (.ok (), fs.removeFile p)) ∧
    (∀ d : PathBuf, (∀ q : PathBuf, a.location ≠ .Dir q) → p.parent? = some d →
      (delete a (some root) fs).1 = .ok () ∧
      (delete a (some root) fs).2.files = (fs.removeFile p).files ∧
      (delete a (some root) fs).2.dirs =
        (if (fs.removeFile p).dirEmpty d then
          fs.dirs.filter (fun q => !decide (q = d))
        else fs.dirs)) := by
  rcases a with ⟨app, loc, fmt⟩
  simp only [config_path, Except.ok.injEq] at hp
  subst hp
  rcases Option.isSome_iff_exists.mp hfile with ⟨w, hw⟩
  unfold delete
  simp only [config_path]
  rw [hw]
  cases loc
  case Auto =>
    refine ⟨fun _ h => (nomatch h), fun d _ hpar => ?_⟩
    refine ⟨?_, ?_, ?_⟩
    · simp only [delete, config_path, hw, hpar]
    · simp only [delete, config_path, hw, hpar]
      unfold FS.removeDirIfEmpty
      split <;> rfl
    · simp only [delete, config_path, hw, hpar]
      unfold FS.removeDirIfEmpty
      split <;> rfl
  case Path path =>
    refine ⟨fun _ h => (nomatch h), fun d _ hpar => ?_⟩
    refine ⟨?_, ?_, ?_⟩
    · simp only [delete, config_path, hw, hpar]
    · simp only [delete, config_path, hw, hpar]
      unfold FS.removeDirIfEmpty
      split <;> rfl
    · simp only [delete, config_path, hw, hpar]
      unfold FS.removeDirIfEmpty
      split <;> rfl
  case File file =>
    refine ⟨fun _ h => (nomatch h), fun d _ hpar => ?_⟩
    refine ⟨?_, ?_, ?_⟩
    · simp only [delete, config_path, hw, hpar]
    · simp only [delete, config_path, hw, hpar]
      unfold FS.removeDirIfEmpty
      split <;> rfl
    · simp only [delete, config_path, hw, hpar]
      unfold FS.removeDirIfEmpty
      split <;> rfl
  case Dir dir =>
    refine ⟨fun _ _ => rfl, fun d hnot _ => absurd rfl (hnot dir)⟩

/-- Witness for C6's amended theorem: a concrete explicit-path delete of a
present file succeeds. -/
theorem c6_witness :
    (delete jsonDescriptor (some osRoot) fsTmpOld).1 = .ok () :=
  ((c6_cleanup_policy jsonDescriptor osRoot fsTmpOld
      ⟨true, ["tmp", "settings.json"]⟩ rfl rfl).2
    ⟨true, ["tmp"]⟩ (fun _ h => Location.noConfusion h) rfl).1

/-- Claim C7 (confirmed): provided the collaborating codec decodes the bytes
the save actually writes (the spec's round-trip law `decode(encode(r)) = r`,
including the trailing newline save appends for pretty JSON) back to the
record, `save` followed by `load` with the same descriptor succeeds and
returns a record equal to the one saved. -/
theorem c7_save_then_load {α : Type} (c : Codec α) (r : α) (a : Abserde)
    (root : PathBuf) (fs : FS) (p d : PathBuf) (b : Bytes)
    (hp : config_path a (some root) = .ok p)
    (hd : p.parent? = some d)
    (henc : c.encode a.format r = .ok b)
    (hdec : c.decode a.format (writtenBytes a.format b) = some r) :
    (save_config c r a (some root) fs).1 = .ok ∧
    load_config c a (some root) (save_config c r a (some root) fs).2 = .ok r := by
  have hs := save_config_eq c r a root fs p d b hp hd henc
  rw [hs]
  refine ⟨rfl, ?_⟩
  simp only [load_config, hp, FS.fileContent_writeFile, hdec]

/-- Witness for C7 with the trivial byte codec at a concrete descriptor. -/
theorem c7_witness :
    (save_config natCodec 5 jsonDescriptor (some osRoot) fs0).1 = .ok ∧
    load_config natCodec jsonDescriptor (some osRoot)
      (save_config natCodec 5 jsonDescriptor (some osRoot) fs0).2 = .ok 5 :=
  c7_save_then_load natCodec 5 jsonDescriptor osRoot fs0
    ⟨true, ["tmp", "settings.json"]⟩ ⟨true, ["tmp"]⟩ [5] rfl rfl rfl rfl

/-- Helper: deleting a present file through a path with a parent succeeds for
every strategy, and afterwards the file table is that of `removeFile`. -/
theorem delete_found_parent (a : Abserde) (root : PathBuf) (fs : FS)
    (p d : PathBuf) (w : Bytes)
    (hp : config_path a (some root) = .ok p)
    (hw : fs.fileContent p = some w)
    (hd : p.parent? = some d) :
    (delete a (some root) fs).1 = .ok () ∧
    (delete a (some root) fs).2.files = (fs.removeFile p).files := by
  rcases a with ⟨app, loc, fmt⟩
  simp only [config_path, Except.ok.injEq] at hp
  subst hp
  cases loc
  case Auto =>
    refine ⟨?_, ?_⟩
    · simp only [delete, config_path, hw, hd]
    · simp only [delete, config_path, hw, hd]
      unfold FS.removeDirIfEmpty
      split <;> rfl
  case Path path =>
    refine ⟨?_, ?_⟩
    · simp only [delete, config_path, hw, hd]
    · simp only [delete, config_path, hw, hd]
      unfold FS.removeDirIfEmpty
      split <;> rfl
  case File file =>
    refine ⟨?_, ?_⟩
    · simp only [delete, config_path, hw, hd]
    · simp only [delete, config_path, hw, hd]
      unfold FS.removeDirIfEmpty
      split <;> rfl
  case Dir dir =>
    refine ⟨?_, ?_⟩
    · simp only [delete, config_path, hw]
    · simp only [delete, config_path, hw]

/-- Claim C8 (confirmed): after a successful save, delete succeeds, the file
at the resolved path is gone, and a subsequent load on the same descriptor
fails with `FileNotFound`. -/
theorem c8_delete_after_save {α : Type} (c : Codec α) (r : α) (a : Abserde)
    (root : PathBuf) (fs : FS) (p d : PathBuf) (b : Bytes)
    (hp : config_path a (some root) = .ok p)
    (hd : p.parent? = some d)
    (henc : c.encode a.format r = .ok b) :
    (save_config c r a (some root) fs).1 = .ok ∧
    (delete a (some root) (save_config c r a (some root) fs).2).1 = .ok () ∧
    (delete a (some root) (save_config c r a (some root) fs).2).2.fileContent p = none ∧
    load_config c a (some root)
      (delete a (some root) (save_config c r a (some root) fs).2).2 =
      .error .fileNotFound := by
  have hs := save_config_eq c r a root fs p d b hp hd henc
  rw [hs]
  have hdel := delete_found_parent a root
    ((fs.createDirAll d).writeFile p (writtenBytes a.format b)) p d
    (writtenBytes a.format b) hp (FS.fileContent_writeFile _ _ _) hd
  have hnone :
      (delete a (some root)
        ((fs.createDirAll d).writeFile p (writtenBytes a.format b))).2.fileContent p =
        none := by
    unfold FS.fileContent
    rw [hdel.2]
    exact FS.fileContent_removeFile_self
      ((fs.createDirAll d).writeFile p (writtenBytes a.format b)) p
  refine ⟨rfl, hdel.1, hnone, ?_⟩
  simp only [load_config, hp, hnone]

/-- Witness for C8 with the trivial byte codec at a concrete descriptor. -/
theorem c8_witness :
    (save_config natCodec 5 jsonDescriptor (some osRoot) fs0).1 = .ok ∧
    (delete jsonDescriptor (some osRoot)
      (save_config natCodec 5 jsonDescriptor (some osRoot) fs0).2).1 = .ok () ∧
    (delete jsonDescriptor (some osRoot)
      (save_config natCodec 5 jsonDescriptor (some osRoot) fs0).2).2.fileContent
      ⟨true, ["tmp", "settings.json"]⟩ = none ∧
    load_config natCodec jsonDescriptor (some osRoot)
      (delete jsonDescriptor (some osRoot)
        (save_config natCodec 5 jsonDescriptor (some osRoot) fs0).2).2 =
      .error .fileNotFound :=
  c8_delete_after_save natCodec 5 jsonDescriptor osRoot fs0
    ⟨true, ["tmp", "settings.json"]⟩ ⟨true, ["tmp"]⟩ [5] rfl rfl rfl

/-- Claim C10 (confirmed): for an `ExplicitPath` descriptor whose resolved
path has no parent component, deleting a present file removes the file and
then returns the error carrying the "no system config directory detected"
message from the cleanup step's `parent().ok_or_else(..)?` — the caller sees
a failure although the file was removed. -/
theorem c10_delete_not_atomic (a : Abserde) (root : PathBuf) (fs : FS)
    (p : PathBuf) (w : Bytes)
    (hloc : a.location = .Path p)
    (hpar : p.parent? = none)
    (hw : fs.fileContent p = some w) :
    delete a (some root) fs = (.error .noSystemConfigDir, fs.removeFile p) := by
  rcases a with ⟨app, loc, fmt⟩
  simp only at hloc
  subst hloc
  simp only [delete, config_path, hw, hpar]

/-- Witness for C10: deleting the file stored at the parentless root path. -/
theorem c10_witness :
    delete rootFileDescriptor (some osRoot) fsRootFile =
      (.error .noSystemConfigDir, fsRootFile.removeFile ⟨true, []⟩) :=
  c10_delete_not_atomic rootFileDescriptor osRoot fsRootFile ⟨true, []⟩ [1]
    rfl rfl rfl
